import Mathlib

/-!
Verification of the Lagrangian trajectory integrator of `src/app.py`
(`parse_params`, `simulate_aus`, `simulate_gbr` and the route handlers).

The Python code is shallowly embedded as follows.

* Machine floats are modelled as elements of an arbitrary linear ordered
  field `α` (instantiated with `ℚ` for executable witnesses and with `ℝ`
  when the genuine trigonometric constants matter).  The library constants
  `np.pi` and the function `lat ↦ np.cos(np.radians(lat))` are external
  primitives of numpy; they enter the model as explicit parameters `pi0`
  and `cosd` of every definition that uses them (at `ℝ` one takes
  `pi0 := Real.pi` and `cosd := cosdR` below).
* A particle position is a pair of `Option α`; `none` models the float
  `NaN` marker used by the code for exited particles.  NumPy comparisons
  with `NaN` are false, which is what the `none` branches implement.
* The `netCDF4`/`zarr` data sources are external collaborators; the loaded
  axes, `U`/`V` arrays, overlay point lists and the randomly seeded initial
  particle positions are passed to the drivers as arguments.
* `scipy.interpolate.RegularGridInterpolator((lat, lon), g, bounds_error=False,
  fill_value=0)` is modelled by `interp2`: bilinear interpolation on the
  cell found by binary search (`searchsorted` semantics, clipped to the
  valid cell range), returning the fill value `0` outside the axis bounds.
* Timestamps: the code records `(ref_date + timedelta(hours=len(dates)*dt))
  .strftime(...)`; the model records the hour offset `len(dates) * dt`
  from the reference date, leaving calendar formatting (a presentation
  detail) out of scope.
-/

namespace App

/-- The direction token recognised by the drivers (`mSIM == 'forwards'`). -/
def forwardsTok : String := ("forwards")

/-- The other documented direction token. -/
def backwardsTok : String := ("backwards")

/-- A particle position: longitude and latitude, `none` modelling `NaN`. -/
abbrev Pos (α : Type) := Option α × Option α

variable {α : Type} [LinearOrderedField α]

/-- Model of `xs.min()` on a nonempty numpy array (0 on the empty array,
where numpy would raise). -/
def npMin (xs : List α) : α :=
  match xs with
  | [] => 0
  | h :: t => t.foldl min h

/-- Model of `xs.max()` on a nonempty numpy array. -/
def npMax (xs : List α) : α :=
  match xs with
  | [] => 0
  | h :: t => t.foldl max h

/-- Number of axis points strictly below `x`; this is
`np.searchsorted(xs, x, side='left')` for a sorted axis `xs`. -/
def countLT (xs : List α) (x : α) : ℕ :=
  (xs.filter (fun a => decide (a < x))).length

/-- The interpolation cell index used by `RegularGridInterpolator`:
`searchsorted(xs, x) - 1` clipped into `[0, xs.length - 2]`. -/
def cellIdx (xs : List α) (x : α) : ℕ :=
  min (countLT xs x - 1) (xs.length - 2)

/-- The local interpolation weight of `x` inside its cell. -/
def lamW (xs : List α) (x : α) : α :=
  let i := cellIdx xs x
  let x0 := xs.getD i 0
  let x1 := xs.getD (i + 1) 0
  (x - x0) / (x1 - x0)

/-- Model of `RegularGridInterpolator((lat_nc, lon_nc), g, bounds_error=False,
fill_value=0)` evaluated at the query point `(la, lo)`: bilinear
interpolation on the bracketing cell, `0` outside the axis bounds. -/
def interp2 (lats lons : List α) (g : ℕ → ℕ → α) (la lo : α) : α :=
  if npMin lats ≤ la ∧ la ≤ npMax lats ∧ npMin lons ≤ lo ∧ lo ≤ npMax lons then
    let i := cellIdx lats la
    let j := cellIdx lons lo
    let tla := lamW lats la
    let tlo := lamW lons lo
    (1 - tla) * (1 - tlo) * g i j + (1 - tla) * tlo * g i (j + 1)
      + tla * (1 - tlo) * g (i + 1) j + tla * tlo * g (i + 1) (j + 1)
  else 0

/-- The in-bounds mask of `simulate_aus`:
`(lonP >= lon_nc.min()) & (lonP <= lon_nc.max()) & (latP >= lat_nc.min()) &
(latP <= lat_nc.max())`.  A `NaN` (`none`) coordinate makes every comparison
false, exactly as in numpy. -/
def inbP (lats lons : List α) (p : Pos α) : Bool :=
  match p with
  | (some lo, some la) =>
      decide (npMin lons ≤ lo) && decide (lo ≤ npMax lons) &&
        decide (npMin lats ≤ la) && decide (la ≤ npMax lats)
  | _ => false

/-- One sub-step of the integrator for one particle (the loop body of
`simulate_aus` lines 93-122, per particle): time-blend the two bilinear
samples with weights `d1 = 1 - frac`, `d2 = frac`, convert the velocity to
degrees with `lat_per_m = 360 / (2 * pi * 6371000)` and
`lon_per = lat_per_m / cos(radians(lat))`, displace in-bounds particles
(added for `forwards`, subtracted otherwise) and set out-of-bounds
particles to `NaN`. -/
def stepParticle (pi0 : α) (cosd : α → α) (lats lons : List α)
    (u1 v1 u2 v2 : ℕ → ℕ → α) (dt : ℤ) (fwd : Bool) (frac : α)
    (p : Pos α) : Pos α :=
  match p with
  | (some lo, some la) =>
    if inbP lats lons (some lo, some la) = true then
      let d1 := 1 - frac
      let d2 := frac
      let u1i := interp2 lats lons u1 la lo
      let v1i := interp2 lats lons v1 la lo
      let u2i := interp2 lats lons u2 la lo
      let v2i := interp2 lats lons v2 la lo
      let ui := d1 * u1i + d2 * u2i
      let vi := d1 * v1i + d2 * v2i
      let latPerM := 360 / (2 * pi0 * 6371000)
      let lonPer := latPerM / cosd la
      let dlon := ui * ((dt : α) * 3600) * lonPer
      let dlat := vi * ((dt : α) * 3600) * latPerM
      if fwd then (some (lo + dlon), some (la + dlat))
      else (some (lo - dlon), some (la - dlat))
    else (none, none)
  | _ => (none, none)

/-- One sub-step applied to the whole particle cloud (the code's vectorised
update; particles are independent within a sub-step). -/
def stepCloud (pi0 : α) (cosd : α → α) (lats lons : List α)
    (u1 v1 u2 v2 : ℕ → ℕ → α) (dt : ℤ) (fwd : Bool) (frac : α)
    (c : List (Pos α)) : List (Pos α) :=
  c.map (stepParticle pi0 cosd lats lons u1 v1 u2 v2 dt fwd frac)

/-- The mutable state of a simulation run: the current particle cloud, the
recorded snapshots (`LONP`/`LATP` rows) and the recorded timestamps (hour
offsets from the start date). -/
structure SimState (α : Type) where
  cloud : List (Pos α)
  snaps : List (List (Pos α))
  dates : List ℤ
deriving DecidableEq

/-- Recording one sub-step: append the new cloud to the trajectory and a
timestamp `len(dates) * dt` hours after the start date. -/
def recordStep (dt : ℤ) (c : List (Pos α)) (st : SimState α) : SimState α :=
  { cloud := c
    snaps := st.snaps ++ [c]
    dates := st.dates ++ [(st.dates.length : ℤ) * dt] }

/-- The inner sub-step loop `for s in range(1, sub_steps + 1)` of the
integrator for one pair of velocity snapshots: sub-step `s = k + 1` uses
the interpolation fraction `frac = s / sub_steps`. -/
def runSubSteps (pi0 : α) (cosd : α → α) (lats lons : List α)
    (u1 v1 u2 v2 : ℕ → ℕ → α) (dt : ℤ) (fwd : Bool) (n : ℕ)
    (st : SimState α) : SimState α :=
  (List.range n).foldl
    (fun st2 k =>
      recordStep dt
        (stepCloud pi0 cosd lats lons u1 v1 u2 v2 dt fwd
          (((k + 1 : ℕ) : α) / (n : α)) st2.cloud)
        st2)
    st

/-- Python `int(q)` on a float: truncation toward zero. -/
def ratTrunc (q : ℚ) : ℤ :=
  if 0 ≤ q then Int.floor q else Int.ceil q

/-- `math.ceil(mDUR / ND)` (Python true division of the two integers). -/
def majorStepsI (mDUR ND : ℤ) : ℤ :=
  Int.ceil ((mDUR : ℚ) / (ND : ℚ))

/-- `max_idx = len(time_all) - 1`. -/
def maxIdxI (numTimes : ℕ) : ℤ :=
  (numTimes : ℤ) - 1

/-- `major_steps = min(math.ceil(mDUR / ND), max_idx)`. -/
def majorSteps (mDUR ND : ℤ) (numTimes : ℕ) : ℤ :=
  min (majorStepsI mDUR ND) (maxIdxI numTimes)

/-- The ordered list of leading time indices:
`list(range(0, major_steps))` for `forwards`, and
`list(range(max_idx, max_idx - major_steps, -1))` otherwise. -/
def timeIdx (mSIM : String) (mDUR ND : ℤ) (numTimes : ℕ) : List ℤ :=
  if mSIM = forwardsTok then
    List.map (fun k : ℕ => (k : ℤ)) (List.range (majorSteps mDUR ND numTimes).toNat)
  else
    List.map (fun k : ℕ => maxIdxI numTimes - (k : ℤ))
      (List.range (majorSteps mDUR ND numTimes).toNat)

/-- `sub_steps = int(ND * 24 / dt)` (true division, then truncation). -/
def subStepsI (ND dt : ℤ) : ℤ :=
  ratTrunc ((ND : ℚ) * 24 / (dt : ℚ))

/-- The pair of time indices used in one major step:
`(t, t + 1) if mSIM == 'forwards' else (t, t - 1)`. -/
def stepPair (mSIM : String) (t : ℤ) : ℤ × ℤ :=
  if mSIM = forwardsTok then (t, t + 1) else (t, t - 1)

/-- The full integration loop of `simulate_aus`/`simulate_gbr` (lines
62-129): for each leading time index run `sub_steps` sub-steps with the
velocity grids at the index pair, accumulating snapshots and dates. -/
def runSim (pi0 : α) (cosd : α → α) (lats lons : List α)
    (U V : ℤ → ℕ → ℕ → α) (numTimes : ℕ) (mSIM : String)
    (mDUR ND dt : ℤ) (init : List (Pos α)) : SimState α :=
  (timeIdx mSIM mDUR ND numTimes).foldl
    (fun st t =>
      let p := stepPair mSIM t
      runSubSteps pi0 cosd lats lons (U p.1) (V p.1) (U p.2) (V p.2) dt
        (mSIM = forwardsTok) (subStepsI ND dt).toNat st)
    { cloud := init, snaps := [], dates := [] }

/-- The payload assembled by the drivers. -/
structure SimResult (α : Type) where
  LONP : List (List (Option α))
  LATP : List (List (Option α))
  TS : ℕ
  dt : ℤ
  dates : List ℤ
  map_lon : List α
  map_lat : List α
  reef_lon : List α
  reef_lat : List α
  mlon : α
  mlat : α
  mAREA : α
  mSIM : String
  mNP : ℕ
  lon_min : α
  lon_max : α
  lat_min : α
  lat_max : α
deriving DecidableEq

/-- Driver `simulate_aus`.  The OSCAR netCDF data source, the overlay CSV
files and the random scatter of the initial particle cloud are external
collaborators; the loaded axes, `U`/`V` arrays (with `NaN` already replaced
by 0), snapshot count, overlay lists and seeded initial positions are
arguments. -/
def simulate_aus (pi0 : α) (cosd : α → α) (lats lons : List α)
    (U V : ℤ → ℕ → ℕ → α) (numTimes : ℕ)
    (mapLon mapLat reefLon reefLat : List α)
    (mlon0 mlat0 : α) (mNP0 : ℕ) (mAREA0 : α) (mSIM : String)
    (mDUR dt ND : ℤ) (init : List (Pos α)) : SimResult α :=
  let st := runSim pi0 cosd lats lons U V numTimes mSIM mDUR ND dt init
  { LONP := st.snaps.map (fun c => c.map Prod.fst)
    LATP := st.snaps.map (fun c => c.map Prod.snd)
    TS := st.snaps.length
    dt := dt
    dates := st.dates
    map_lon := mapLon
    map_lat := mapLat
    reef_lon := reefLon
    reef_lat := reefLat
    mlon := mlon0
    mlat := mlat0
    mAREA := mAREA0
    mSIM := mSIM
    mNP := mNP0
    lon_min := npMin lons
    lon_max := npMax lons
    lat_min := npMin lats
    lat_max := npMax lats }

/-- Driver `simulate_gbr`.  Identical integration and packaging code; only
the (external) data acquisition differs: axes come from JSON lists, `U`/`V`
from slices `z[0]`/`z[1]` of a Zarr array and the snapshot count from
`z.shape[1]`. -/
def simulate_gbr (pi0 : α) (cosd : α → α) (lats lons : List α)
    (U V : ℤ → ℕ → ℕ → α) (numTimes : ℕ)
    (mapLon mapLat reefLon reefLat : List α)
    (mlon0 mlat0 : α) (mNP0 : ℕ) (mAREA0 : α) (mSIM : String)
    (mDUR dt ND : ℤ) (init : List (Pos α)) : SimResult α :=
  let st := runSim pi0 cosd lats lons U V numTimes mSIM mDUR ND dt init
  { LONP := st.snaps.map (fun c => c.map Prod.fst)
    LATP := st.snaps.map (fun c => c.map Prod.snd)
    TS := st.snaps.length
    dt := dt
    dates := st.dates
    map_lon := mapLon
    map_lat := mapLat
    reef_lon := reefLon
    reef_lat := reefLat
    mlon := mlon0
    mlat := mlat0
    mAREA := mAREA0
    mSIM := mSIM
    mNP := mNP0
    lon_min := npMin lons
    lon_max := npMax lons
    lat_min := npMin lats
    lat_max := npMax lats }

/-- Character-level string split on a separator character (the Lean string
splitter is opaque to kernel evaluation, so the split is spelled out;
semantics of Python `str.split(sep)` for a one-character separator). -/
def splitOnChar (sep : Char) (cs : List Char) : List (List Char) :=
  match cs with
  | [] => [[]]
  | c :: rest =>
    let r := splitOnChar sep rest
    if c = sep then [] :: r
    else
      match r with
      | [] => [[c]]
      | h :: t => (c :: h) :: t

/-- The token list of a request string: `param_str.split('_')`. -/
def tokensOf (s : String) : List String :=
  (splitOnChar '_' s.data).map (fun cs => String.mk cs)

/-- Value of a digit run, `none` if empty or containing a non-digit.  Models
the digit-string acceptance of the Python `int`/`float` builtins. -/
def digitsToNat (cs : List Char) : Option ℕ :=
  if cs = [] then none
  else
    cs.foldl
      (fun acc c =>
        acc.bind (fun n => if c.isDigit then some (10 * n + (c.toNat - 48)) else none))
      (some 0)

/-- Model of the Python builtin `int(s)` on the token strings reaching it
(plain optionally signed decimal integers; anything else raises
`ValueError`, modelled as `none`). -/
def pyInt (s : String) : Option ℤ :=
  match s.data with
  | [] => none
  | c :: rest =>
    if c = '-' then (digitsToNat rest).map (fun n => -(n : ℤ))
    else (digitsToNat s.data).map (fun n => (n : ℤ))

/-- Unsigned decimal literal with at most one point, as a rational. -/
def decimalCore (cs : List Char) : Option ℚ :=
  match splitOnChar '.' cs with
  | [a] => (digitsToNat a).map (fun n => (n : ℚ))
  | [a, b] =>
    match digitsToNat a, digitsToNat b with
    | some n, some m => some ((n : ℚ) + (m : ℚ) / ((10 : ℚ) ^ b.length))
    | _, _ => none
  | _ => none

/-- Model of the Python builtin `float(s)` on the token strings reaching it
(optionally signed decimal literals; anything else raises `ValueError`,
modelled as `none`).  Tokens never contain an underscore because they come
from `split('_')`. -/
def pyFloat (s : String) : Option ℚ :=
  match s.data with
  | [] => none
  | c :: rest =>
    if c = '-' then (decimalCore rest).map (fun q => -q)
    else (decimalCore s.data)

/-- The tuple returned by `parse_params`. -/
structure ParsedParams where
  lon : ℚ
  lat : ℚ
  mNP : ℤ
  mAREA : ℚ
  mSIM : String
  mDUR : ℤ
  mDT : ℤ
  date_str : String
deriving DecidableEq

/-- `parse_params`: split the request string on underscores and convert the
first eight tokens (`float`, `float`, `int`, `float`, raw string, `int`,
`int`, raw string).  A missing token (`IndexError`) or failing conversion
(`ValueError`) raises, modelled as `none`.  The direction token
`parts[4]` is passed through without any validation, and tokens beyond the
eighth are ignored. -/
def parse_params (param_str : String) : Option ParsedParams :=
  let parts := tokensOf param_str
  do
    let s0 ← parts.get? 0
    let lon ← pyFloat s0
    let s1 ← parts.get? 1
    let lat ← pyFloat s1
    let s2 ← parts.get? 2
    let mNP ← pyInt s2
    let s3 ← parts.get? 3
    let mAREA ← pyFloat s3
    let mSIM ← parts.get? 4
    let s5 ← parts.get? 5
    let mDUR ← pyInt s5
    let s6 ← parts.get? 6
    let mDT ← pyInt s6
    let ds ← parts.get? 7
    pure ⟨lon, lat, mNP, mAREA, mSIM, mDUR, mDT, ds⟩

/-- The `/api/aus_sim/<params>` handler: parse the request string first and
report a client input error if that raises; only in the success branch is
the simulation (and with it any velocity data source) invoked.  The
simulation together with its data acquisition is the function argument
`sim`. -/
def api_sim (sim : ParsedParams → SimResult ℚ) (param_str : String) :
    Except String (SimResult ℚ) :=
  match parse_params param_str with
  | none => Except.error ("client input error")
  | some p => Except.ok (sim p)

/-- The numpy primitive `lat ↦ np.cos(np.radians(lat))` over the reals. -/
noncomputable def cosdR : ℝ → ℝ :=
  fun lat => Real.cos (lat * Real.pi / 180)

/-- Meters per degree of latitude, `mlat = (2 * pi * 6371000) / 360`; this
is the reciprocal of the code constant `lat_per_m`. -/
def mlatDef (pi0 : α) : α :=
  2 * pi0 * 6371000 / 360

/-- Modelled from the spec: the spec's claimed meters-per-degree-longitude
`mlon(lat) = mlat / cos(radians(lat))` (to be compared with the code, which
effectively divides the displacement by `mlat * cos(radians(lat))`). -/
def specMlon (pi0 : α) (cosd : α → α) (lat : α) : α :=
  mlatDef pi0 / cosd lat

/-- One cloud is a sub-step successor of another (for some velocity grids,
time step, direction and interpolation fraction) on the fixed axes. -/
def StepRel (pi0 : α) (cosd : α → α) (lats lons : List α)
    (c c2 : List (Pos α)) : Prop :=
  ∃ u1 v1 u2 v2 dt fwd frac,
    c2 = stepCloud pi0 cosd lats lons u1 v1 u2 v2 dt fwd frac c

/-- Invariant of the integration loops: the recorded snapshots form a
sub-step chain starting at the initial cloud, and the current cloud is the
last recorded snapshot (or the initial cloud before any recording). -/
def Tracks (pi0 : α) (cosd : α → α) (lats lons : List α)
    (init : List (Pos α)) (st : SimState α) : Prop :=
  List.Chain' (StepRel pi0 cosd lats lons) (init :: st.snaps) ∧
    (init :: st.snaps).getLast? = some st.cloud

/-- The cloud after `m` of the `n` sub-steps of one major step (sub-step
`m` uses fraction `m / n`). -/
def subCloudIter (pi0 : α) (cosd : α → α) (lats lons : List α)
    (u1 v1 u2 v2 : ℕ → ℕ → α) (dt : ℤ) (fwd : Bool) (n : ℕ)
    (c : List (Pos α)) : ℕ → List (Pos α)
  | 0 => c
  | m + 1 =>
    stepCloud pi0 cosd lats lons u1 v1 u2 v2 dt fwd (((m + 1 : ℕ) : α) / (n : α))
      (subCloudIter pi0 cosd lats lons u1 v1 u2 v2 dt fwd n c m)

/-- A fixed trivial simulation result, used to show that the handler's
success branch is reached. -/
def emptyResult : SimResult ℚ :=
  { LONP := []
    LATP := []
    TS := 0
    dt := 0
    dates := []
    map_lon := []
    map_lat := []
    reef_lon := []
    reef_lat := []
    mlon := 0
    mlat := 0
    mAREA := 0
    mSIM := ("")
    mNP := 0
    lon_min := 0
    lon_max := 0
    lat_min := 0
    lat_max := 0 }

/-! ## Structural lemmas about the integration loops -/

lemma foldl_preserve {β γ : Type} (P : γ → Prop) (f : γ → β → γ)
    (hf : ∀ st b, P st → P (f st b)) :
    ∀ (l : List β) (st : γ), P st → P (l.foldl f st) := by
  intro l
  induction l with
  | nil => intro st h; exact h
  | cons b t ih => intro st h; exact ih _ (hf st b h)

lemma foldl_measure_add {β γ : Type} (p : γ → ℕ) (n : ℕ) (f : γ → β → γ)
    (hf : ∀ st b, p (f st b) = p st + n) :
    ∀ (l : List β) (st : γ), p (l.foldl f st) = p st + l.length * n := by
  intro l
  induction l with
  | nil => intro st; simp
  | cons b t ih =>
    intro st
    have := ih (f st b)
    simp only [List.foldl_cons, this, hf, List.length_cons]
    ring

lemma recordStep_snaps_length (dt : ℤ) (c : List (Pos α)) (st : SimState α) :
    (recordStep dt c st).snaps.length = st.snaps.length + 1 := by
  simp [recordStep]

lemma recordStep_dates_length (dt : ℤ) (c : List (Pos α)) (st : SimState α) :
    (recordStep dt c st).dates.length = st.dates.length + 1 := by
  simp [recordStep]

lemma runSubSteps_snaps_length (pi0 : α) (cosd : α → α) (lats lons : List α)
    (u1 v1 u2 v2 : ℕ → ℕ → α) (dt : ℤ) (fwd : Bool) (n : ℕ) (st : SimState α) :
    (runSubSteps pi0 cosd lats lons u1 v1 u2 v2 dt fwd n st).snaps.length
      = st.snaps.length + n := by
  have h := foldl_measure_add (γ := SimState α) (fun st2 => st2.snaps.length) 1
    (fun st2 k =>
      recordStep dt
        (stepCloud pi0 cosd lats lons u1 v1 u2 v2 dt fwd
          (((k + 1 : ℕ) : α) / (n : α)) st2.cloud)
        st2)
    (fun st2 k => recordStep_snaps_length _ _ _) (List.range n) st
  simpa [runSubSteps] using h

lemma runSubSteps_dates_length (pi0 : α) (cosd : α → α) (lats lons : List α)
    (u1 v1 u2 v2 : ℕ → ℕ → α) (dt : ℤ) (fwd : Bool) (n : ℕ) (st : SimState α) :
    (runSubSteps pi0 cosd lats lons u1 v1 u2 v2 dt fwd n st).dates.length
      = st.dates.length + n := by
  have h := foldl_measure_add (γ := SimState α) (fun st2 => st2.dates.length) 1
    (fun st2 k =>
      recordStep dt
        (stepCloud pi0 cosd lats lons u1 v1 u2 v2 dt fwd
          (((k + 1 : ℕ) : α) / (n : α)) st2.cloud)
        st2)
    (fun st2 k => recordStep_dates_length _ _ _) (List.range n) st
  simpa [runSubSteps] using h

lemma timeIdx_length (mSIM : String) (mDUR ND : ℤ) (numTimes : ℕ) :
    (timeIdx mSIM mDUR ND numTimes).length
      = (majorSteps mDUR ND numTimes).toNat := by
  unfold timeIdx
  split <;> rw [List.length_map, List.length_range]

lemma runSim_snaps_length (pi0 : α) (cosd : α → α) (lats lons : List α)
    (U V : ℤ → ℕ → ℕ → α) (numTimes : ℕ) (mSIM : String)
    (mDUR ND dt : ℤ) (init : List (Pos α)) :
    (runSim pi0 cosd lats lons U V numTimes mSIM mDUR ND dt init).snaps.length
      = (majorSteps mDUR ND numTimes).toNat * (subStepsI ND dt).toNat := by
  have h := foldl_measure_add (γ := SimState α) (fun st2 => st2.snaps.length)
    (subStepsI ND dt).toNat
    (fun st t =>
      runSubSteps pi0 cosd lats lons (U (stepPair mSIM t).1) (V (stepPair mSIM t).1)
        (U (stepPair mSIM t).2) (V (stepPair mSIM t).2) dt
        (mSIM = forwardsTok) (subStepsI ND dt).toNat st)
    (fun st t => runSubSteps_snaps_length _ _ _ _ _ _ _ _ _ _ _ _)
    (timeIdx mSIM mDUR ND numTimes)
    { cloud := init, snaps := [], dates := [] }
  simpa [runSim, timeIdx_length] using h

lemma runSim_dates_length (pi0 : α) (cosd : α → α) (lats lons : List α)
    (U V : ℤ → ℕ → ℕ → α) (numTimes : ℕ) (mSIM : String)
    (mDUR ND dt : ℤ) (init : List (Pos α)) :
    (runSim pi0 cosd lats lons U V numTimes mSIM mDUR ND dt init).dates.length
      = (majorSteps mDUR ND numTimes).toNat * (subStepsI ND dt).toNat := by
  have h := foldl_measure_add (γ := SimState α) (fun st2 => st2.dates.length)
    (subStepsI ND dt).toNat
    (fun st t =>
      runSubSteps pi0 cosd lats lons (U (stepPair mSIM t).1) (V (stepPair mSIM t).1)
        (U (stepPair mSIM t).2) (V (stepPair mSIM t).2) dt
        (mSIM = forwardsTok) (subStepsI ND dt).toNat st)
    (fun st t => runSubSteps_dates_length _ _ _ _ _ _ _ _ _ _ _ _)
    (timeIdx mSIM mDUR ND numTimes)
    { cloud := init, snaps := [], dates := [] }
  simpa [runSim, timeIdx_length] using h

lemma ratTrunc_toNat_eq_floor_toNat (q : ℚ) :
    (ratTrunc q).toNat = (Int.floor q).toNat := by
  unfold ratTrunc
  split
  · rfl
  · rename_i h
    have hq : q ≤ 0 := le_of_lt (lt_of_not_le h)
    have h1 : Int.ceil q ≤ 0 := by
      have := Int.ceil_le_ceil (α := ℚ) hq
      simpa using this
    have h2 : Int.floor q ≤ 0 := by
      have := Int.floor_le_floor (α := ℚ) hq
      simpa using this
    rw [Int.toNat_of_nonpos h1, Int.toNat_of_nonpos h2]

/-! ## Claim C8: the two drivers agree given identical inputs -/

/-- C8: `simulate_aus` and `simulate_gbr` differ only in how the velocity
grids and axes are obtained; given identical axes, `U`/`V` arrays, initial
particle positions, overlay lists and simulation parameters they return
identical results (trajectories, dates, bounds and echoed parameters). -/
theorem claimC8 (pi0 : α) (cosd : α → α) (lats lons : List α)
    (U V : ℤ → ℕ → ℕ → α) (numTimes : ℕ)
    (mapLon mapLat reefLon reefLat : List α)
    (mlon0 mlat0 : α) (mNP0 : ℕ) (mAREA0 : α) (mSIM : String)
    (mDUR dt ND : ℤ) (init : List (Pos α)) :
    simulate_aus pi0 cosd lats lons U V numTimes mapLon mapLat reefLon reefLat
        mlon0 mlat0 mNP0 mAREA0 mSIM mDUR dt ND init
      = simulate_gbr pi0 cosd lats lons U V numTimes mapLon mapLat reefLon reefLat
        mlon0 mlat0 mNP0 mAREA0 mSIM mDUR dt ND init := rfl

/-! ## Claim C2: total number of recorded snapshots -/

/-- C2: the total number of recorded trajectory snapshots (and of recorded
dates) equals `major_steps * floor(ND * 24 / dt)` where
`major_steps = min(ceil(mDUR / ND), numTimes - 1)` (taken as 0 when
negative); in particular when the sub-step count is 0 nothing is recorded.
The code truncates `ND * 24 / dt` toward zero, which agrees with the floor
after the clamp to `ℕ`. -/
theorem claimC2 (pi0 : α) (cosd : α → α) (lats lons : List α)
    (U V : ℤ → ℕ → ℕ → α) (numTimes : ℕ) (mSIM : String)
    (mDUR ND dt : ℤ) (init : List (Pos α)) :
    (runSim pi0 cosd lats lons U V numTimes mSIM mDUR ND dt init).snaps.length
        = (majorSteps mDUR ND numTimes).toNat * (subStepsI ND dt).toNat ∧
      (runSim pi0 cosd lats lons U V numTimes mSIM mDUR ND dt init).dates.length
        = (majorSteps mDUR ND numTimes).toNat * (subStepsI ND dt).toNat ∧
      (subStepsI ND dt).toNat = (Int.floor ((ND : ℚ) * 24 / (dt : ℚ))).toNat := by
  refine ⟨runSim_snaps_length _ _ _ _ _ _ _ _ _ _ _ _,
    runSim_dates_length _ _ _ _ _ _ _ _ _ _ _ _, ?_⟩
  exact ratTrunc_toNat_eq_floor_toNat _

/-! ## Claim C6: the two directions select mirrored time-index lists -/

/-- C6: with at least one major step, the forwards list of leading time
indices is `[0, 1, ..., major_steps - 1]` with pairs `(t, t + 1)` and the
backwards list is `[last, last - 1, ..., last - major_steps + 1]` with
pairs `(t, t - 1)`; position by position the two lists are mirror images
at the two ends of the available snapshot range. -/
theorem claimC6 (mDUR ND : ℤ) (numTimes : ℕ)
    (h : 1 ≤ majorSteps mDUR ND numTimes) :
    (timeIdx forwardsTok mDUR ND numTimes).length
        = (majorSteps mDUR ND numTimes).toNat ∧
      (timeIdx backwardsTok mDUR ND numTimes).length
        = (majorSteps mDUR ND numTimes).toNat ∧
      (∀ k, k < (majorSteps mDUR ND numTimes).toNat →
        (timeIdx forwardsTok mDUR ND numTimes).get? k = some (k : ℤ)) ∧
      (∀ k, k < (majorSteps mDUR ND numTimes).toNat →
        (timeIdx backwardsTok mDUR ND numTimes).get? k
          = some (maxIdxI numTimes - (k : ℤ))) ∧
      (∀ t : ℤ, stepPair forwardsTok t = (t, t + 1)) ∧
      (∀ t : ℤ, stepPair backwardsTok t = (t, t - 1)) ∧
      (∀ k, k < (majorSteps mDUR ND numTimes).toNat →
        (timeIdx backwardsTok mDUR ND numTimes).get? k
          = ((timeIdx forwardsTok mDUR ND numTimes).get? k).map
              (fun t => maxIdxI numTimes - t)) := by
  have hf : ∀ k, k < (majorSteps mDUR ND numTimes).toNat →
      (timeIdx forwardsTok mDUR ND numTimes).get? k = some (k : ℤ) := by
    intro k hk
    unfold timeIdx
    rw [if_pos rfl, List.get?_map, List.get?_range hk]
    rfl
  have hb : ∀ k, k < (majorSteps mDUR ND numTimes).toNat →
      (timeIdx backwardsTok mDUR ND numTimes).get? k
        = some (maxIdxI numTimes - (k : ℤ)) := by
    intro k hk
    unfold timeIdx
    rw [if_neg (by decide), List.get?_map, List.get?_range hk]
    rfl
  refine ⟨timeIdx_length _ _ _ _, timeIdx_length _ _ _ _, hf, hb, ?_, ?_, ?_⟩
  · intro t; unfold stepPair; rw [if_pos rfl]
  · intro t; unfold stepPair; rw [if_neg (by decide)]
  · intro k hk
    rw [hf k hk, hb k hk]
    rfl

/-- Witness for C6 at `mDUR = 5`, `ND = 5`, `numTimes = 3` (one major
step). -/
theorem claimC6_witness :
    1 ≤ majorSteps 5 5 3 ∧
      ((timeIdx forwardsTok 5 5 3).length = (majorSteps 5 5 3).toNat ∧
        (timeIdx backwardsTok 5 5 3).length = (majorSteps 5 5 3).toNat ∧
        (∀ k, k < (majorSteps 5 5 3).toNat →
          (timeIdx forwardsTok 5 5 3).get? k = some (k : ℤ)) ∧
        (∀ k, k < (majorSteps 5 5 3).toNat →
          (timeIdx backwardsTok 5 5 3).get? k = some (maxIdxI 3 - (k : ℤ))) ∧
        (∀ t : ℤ, stepPair forwardsTok t = (t, t + 1)) ∧
        (∀ t : ℤ, stepPair backwardsTok t = (t, t - 1)) ∧
        (∀ k, k < (majorSteps 5 5 3).toNat →
          (timeIdx backwardsTok 5 5 3).get? k
            = ((timeIdx forwardsTok 5 5 3).get? k).map
                (fun t => maxIdxI 3 - t))) := by
  have h : 1 ≤ majorSteps 5 5 3 := by
    norm_num [majorSteps, majorStepsI, maxIdxI, Int.toNat_ofNat]
  exact ⟨h, claimC6 5 5 3 h⟩

/-! ## Claim C10: all accessed time indices are in range -/

/-- C10: every leading index `t` in the index list and its partner
`(stepPair mSIM t).2` (which is `t + 1` forwards and `t - 1` otherwise)
lie in `[0, numTimes - 1]`, because the major-step count is clamped to
`numTimes - 1`; and for at most one snapshot, or a non-positive duration
with the positive coarsening interval `ND`, the index list is empty. -/
theorem claimC10 (mSIM : String) (mDUR ND : ℤ) (numTimes : ℕ) :
    (∀ t, t ∈ timeIdx mSIM mDUR ND numTimes →
        (0 ≤ t ∧ t ≤ maxIdxI numTimes) ∧
          0 ≤ (stepPair mSIM t).2 ∧ (stepPair mSIM t).2 ≤ maxIdxI numTimes) ∧
      ((numTimes ≤ 1 ∨ (mDUR ≤ 0 ∧ 0 < ND)) →
        timeIdx mSIM mDUR ND numTimes = []) := by
  have hML : majorSteps mDUR ND numTimes ≤ maxIdxI numTimes := min_le_right _ _
  constructor
  · intro t ht
    by_cases hf : mSIM = forwardsTok
    · rw [hf] at ht ⊢
      unfold timeIdx at ht
      rw [if_pos rfl] at ht
      obtain ⟨k, hk, rfl⟩ := List.mem_map.mp ht
      rw [List.mem_range] at hk
      unfold stepPair
      rw [if_pos rfl]
      refine ⟨⟨by omega, by omega⟩, by omega, by omega⟩
    · unfold timeIdx at ht
      rw [if_neg hf] at ht
      obtain ⟨k, hk, rfl⟩ := List.mem_map.mp ht
      rw [List.mem_range] at hk
      unfold stepPair
      rw [if_neg hf]
      refine ⟨⟨by omega, by omega⟩, by omega, by omega⟩
  · intro hcase
    have hM : majorSteps mDUR ND numTimes ≤ 0 := by
      rcases hcase with h1 | h2
      · have : maxIdxI numTimes ≤ 0 := by unfold maxIdxI; omega
        exact le_trans hML this
      · have hq : (mDUR : ℚ) / (ND : ℚ) ≤ 0 :=
          div_nonpos_of_nonpos_of_nonneg (by exact_mod_cast h2.1)
            (by exact_mod_cast le_of_lt h2.2)
        have : majorStepsI mDUR ND ≤ 0 :=
          Int.ceil_le.mpr (by exact_mod_cast hq)
        exact le_trans (min_le_left _ _) this
    unfold timeIdx
    split <;> simp [Int.toNat_of_nonpos hM]

/-- Witness for C10: the index `0` of a forwards run with three snapshots,
and the empty list when only one snapshot is available. -/
theorem claimC10_witness :
    ((0 : ℤ) ∈ timeIdx forwardsTok 5 5 3) ∧
      (((0 : ℤ) ≤ 0 ∧ (0 : ℤ) ≤ maxIdxI 3) ∧
        0 ≤ (stepPair forwardsTok 0).2 ∧
          (stepPair forwardsTok 0).2 ≤ maxIdxI 3) ∧
      timeIdx forwardsTok 5 5 1 = [] := by
  have hmem : (0 : ℤ) ∈ timeIdx forwardsTok 5 5 3 := by
    have h1 : (majorSteps 5 5 3).toNat = 1 := by
      norm_num [majorSteps, majorStepsI, maxIdxI, Int.toNat_ofNat]
    unfold timeIdx
    rw [if_pos rfl, h1]
    decide
  refine ⟨hmem, (claimC10 forwardsTok 5 5 3).1 0 hmem,
    (claimC10 forwardsTok 5 5 1).2 (Or.inl (by norm_num))⟩

/-! ## Claim C5: recorded timestamps -/

lemma recordStep_datesOK (dtv : ℤ) (c : List (Pos α)) (st : SimState α)
    (h : st.dates = List.map (fun k : ℕ => (k : ℤ) * dtv) (List.range st.snaps.length)) :
    (recordStep dtv c st).dates
      = List.map (fun k : ℕ => (k : ℤ) * dtv)
          (List.range (recordStep dtv c st).snaps.length) := by
  have hlen : st.dates.length = st.snaps.length := by
    rw [h, List.length_map, List.length_range]
  simp only [recordStep, h, List.length_append, List.length_map,
    List.length_range, List.length_singleton, List.range_succ, List.map_append,
    List.map_cons, List.map_nil]

lemma runSubSteps_datesOK (pi0 : α) (cosd : α → α) (lats lons : List α)
    (u1 v1 u2 v2 : ℕ → ℕ → α) (dt : ℤ) (fwd : Bool) (n : ℕ) (st : SimState α)
    (h : st.dates = List.map (fun k : ℕ => (k : ℤ) * dt) (List.range st.snaps.length)) :
    (runSubSteps pi0 cosd lats lons u1 v1 u2 v2 dt fwd n st).dates
      = List.map (fun k : ℕ => (k : ℤ) * dt)
          (List.range (runSubSteps pi0 cosd lats lons u1 v1 u2 v2 dt fwd n st).snaps.length) := by
  exact foldl_preserve
    (fun st2 : SimState α =>
      st2.dates = List.map (fun k : ℕ => (k : ℤ) * dt) (List.range st2.snaps.length))
    _ (fun st2 k hp => recordStep_datesOK dt _ st2 hp) (List.range n) st h

lemma runSim_datesOK (pi0 : α) (cosd : α → α) (lats lons : List α)
    (U V : ℤ → ℕ → ℕ → α) (numTimes : ℕ) (mSIM : String)
    (mDUR ND dt : ℤ) (init : List (Pos α)) :
    (runSim pi0 cosd lats lons U V numTimes mSIM mDUR ND dt init).dates
      = List.map (fun k : ℕ => (k : ℤ) * dt)
          (List.range
            (runSim pi0 cosd lats lons U V numTimes mSIM mDUR ND dt init).snaps.length) := by
  exact foldl_preserve
    (fun st2 : SimState α =>
      st2.dates = List.map (fun k : ℕ => (k : ℤ) * dt) (List.range st2.snaps.length))
    _
    (fun st2 t hp =>
      runSubSteps_datesOK pi0 cosd lats lons _ _ _ _ dt _ _ st2 hp)
    (timeIdx mSIM mDUR ND numTimes)
    { cloud := init, snaps := [], dates := [] } (by simp)

/-- C5 (amended): the timestamp paired with the `k`-th recorded snapshot
(0-based) is the start date plus `k * dt` hours, i.e. `dt` times the number
of sub-steps executed *before* the recorded one; the first snapshot is
stamped with the start date itself.  (The claim as stated — `dt` times the
total number of sub-steps executed so far, which includes the sub-step just
recorded — is off by one, see the counterexample.)  Dates and snapshots
stay in one-to-one correspondence. -/
theorem claimC5 (pi0 : α) (cosd : α → α) (lats lons : List α)
    (U V : ℤ → ℕ → ℕ → α) (numTimes : ℕ) (mSIM : String)
    (mDUR ND dt : ℤ) (init : List (Pos α)) :
    (∀ k, k < (runSim pi0 cosd lats lons U V numTimes mSIM mDUR ND dt init).dates.length →
        (runSim pi0 cosd lats lons U V numTimes mSIM mDUR ND dt init).dates.get? k
          = some ((k : ℤ) * dt)) ∧
      (runSim pi0 cosd lats lons U V numTimes mSIM mDUR ND dt init).dates.length
        = (runSim pi0 cosd lats lons U V numTimes mSIM mDUR ND dt init).snaps.length := by
  have h := runSim_datesOK pi0 cosd lats lons U V numTimes mSIM mDUR ND dt init
  constructor
  · intro k hk
    rw [h] at hk ⊢
    rw [List.length_map, List.length_range] at hk
    rw [List.get?_map, List.get?_range hk]
    rfl
  · rw [h, List.length_map, List.length_range]

/-- Counterexample to C5 as stated: in a concrete forwards run with
`dt = 24` hours, the timestamp recorded with the first snapshot — at which
point one sub-step (of `24` hours) has already executed — is the start
date itself (offset `0`), not start plus `1 * 24` hours. -/
theorem claimC5_counterexample :
    (runSim (3 : ℚ) (fun _ => 1) [0, 10] [0, 10] (fun _ _ _ => 0) (fun _ _ _ => 0)
        2 forwardsTok 5 5 24 [(some 1, some 1)]).dates.get? 0 = some 0 ∧
      (0 : ℤ) ≠ 1 * 24 := by
  have h := runSim_datesOK (3 : ℚ) (fun _ => 1) [0, 10] [0, 10]
    (fun _ _ _ => 0) (fun _ _ _ => 0) 2 forwardsTok 5 5 24 [(some 1, some 1)]
  have hlen := runSim_snaps_length (3 : ℚ) (fun _ => 1) [0, 10] [0, 10]
    (fun _ _ _ => 0) (fun _ _ _ => 0) 2 forwardsTok 5 5 24 [(some 1, some 1)]
  have hM : (majorSteps 5 5 2).toNat = 1 := by
    norm_num [majorSteps, majorStepsI, maxIdxI, Int.toNat_ofNat]
  have hS0 : subStepsI 5 24 = 5 := by
    norm_num [subStepsI, ratTrunc]
  have hS : (subStepsI 5 24).toNat = 5 := by rw [hS0]; rfl
  rw [hM, hS] at hlen
  constructor
  · rw [h, List.get?_map, List.get?_range (by rw [hlen]; norm_num)]
    rfl
  · norm_num

/-- Witness for the amended C5 on a concrete run: the first recorded
timestamp offset is `0 * dt`. -/
theorem claimC5_witness :
    0 < (runSim (3 : ℚ) (fun _ => 1) [0, 10] [0, 10] (fun _ _ _ => 0) (fun _ _ _ => 0)
          2 forwardsTok 5 5 60 [(some 1, some 1)]).dates.length ∧
      (runSim (3 : ℚ) (fun _ => 1) [0, 10] [0, 10] (fun _ _ _ => 0) (fun _ _ _ => 0)
          2 forwardsTok 5 5 60 [(some 1, some 1)]).dates.get? 0
        = some (((0 : ℕ) : ℤ) * 60) := by
  have hlen := runSim_dates_length (3 : ℚ) (fun _ => 1) [0, 10] [0, 10]
    (fun _ _ _ => 0) (fun _ _ _ => 0) 2 forwardsTok 5 5 60 [(some 1, some 1)]
  have hM : (majorSteps 5 5 2).toNat = 1 := by
    norm_num [majorSteps, majorStepsI, maxIdxI, Int.toNat_ofNat]
  have hS0 : subStepsI 5 60 = 2 := by
    norm_num [subStepsI, ratTrunc]
  have hS : (subStepsI 5 60).toNat = 2 := by rw [hS0]; rfl
  have hpos : 0 < (runSim (3 : ℚ) (fun _ => 1) [0, 10] [0, 10] (fun _ _ _ => 0)
      (fun _ _ _ => 0) 2 forwardsTok 5 5 60 [(some 1, some 1)]).dates.length := by
    rw [hlen, hM, hS]; norm_num
  exact ⟨hpos,
    (claimC5 (3 : ℚ) (fun _ => 1) [0, 10] [0, 10] (fun _ _ _ => 0) (fun _ _ _ => 0)
        2 forwardsTok 5 5 60 [(some 1, some 1)]).1 0 hpos⟩

/-! ## Claim C3: the exit marker is a ratchet -/

lemma stepParticle_not_inb (pi0 : α) (cosd : α → α) (lats lons : List α)
    (u1 v1 u2 v2 : ℕ → ℕ → α) (dt : ℤ) (fwd : Bool) (frac : α) (p : Pos α)
    (h : inbP lats lons p = false) :
    stepParticle pi0 cosd lats lons u1 v1 u2 v2 dt fwd frac p = (none, none) := by
  rcases p with ⟨o1, o2⟩
  cases o1 with
  | none => cases o2 <;> rfl
  | some lo =>
    cases o2 with
    | none => rfl
    | some la => simp [stepParticle, h]

lemma stepParticle_dead (pi0 : α) (cosd : α → α) (lats lons : List α)
    (u1 v1 u2 v2 : ℕ → ℕ → α) (dt : ℤ) (fwd : Bool) (frac : α) (p : Pos α)
    (h : p.1 = none ∨ p.2 = none) :
    stepParticle pi0 cosd lats lons u1 v1 u2 v2 dt fwd frac p = (none, none) := by
  rcases p with ⟨o1, o2⟩
  rcases h with h | h
  · simp only at h
    subst h
    cases o2 <;> rfl
  · simp only at h
    subst h
    cases o1 <;> rfl

lemma stepParticle_out_shape (pi0 : α) (cosd : α → α) (lats lons : List α)
    (u1 v1 u2 v2 : ℕ → ℕ → α) (dt : ℤ) (fwd : Bool) (frac : α) (p : Pos α)
    (h : (stepParticle pi0 cosd lats lons u1 v1 u2 v2 dt fwd frac p).1 = none ∨
      (stepParticle pi0 cosd lats lons u1 v1 u2 v2 dt fwd frac p).2 = none) :
    stepParticle pi0 cosd lats lons u1 v1 u2 v2 dt fwd frac p = (none, none) := by
  rcases p with ⟨o1, o2⟩
  cases o1 with
  | none => cases o2 <;> rfl
  | some lo =>
    cases o2 with
    | none => rfl
    | some la =>
      by_cases hin : inbP lats lons (some lo, some la) = true
      · simp only [stepParticle, if_pos hin] at h ⊢
        cases fwd <;> simp at h
      · simp [stepParticle, hin]



lemma tracks_record (pi0 : α) (cosd : α → α) (lats lons : List α)
    (u1 v1 u2 v2 : ℕ → ℕ → α) (dt2 : ℤ) (fwd : Bool) (frac : α)
    (dtv : ℤ) (init : List (Pos α)) (st : SimState α)
    (h : Tracks pi0 cosd lats lons init st) :
    Tracks pi0 cosd lats lons init
      (recordStep dtv
        (stepCloud pi0 cosd lats lons u1 v1 u2 v2 dt2 fwd frac st.cloud) st) := by
  obtain ⟨hch, hcl⟩ := h
  constructor
  · show List.Chain' (StepRel pi0 cosd lats lons) (init :: (st.snaps ++ [_]))
    rw [← List.cons_append]
    refine List.chain'_append.mpr ⟨hch, List.chain'_singleton _, ?_⟩
    intro x hx y hy
    rw [hcl] at hx
    simp only [Option.mem_def, Option.some_inj] at hx
    simp only [List.head?_cons, Option.mem_def, Option.some_inj] at hy
    subst hx
    subst hy
    exact ⟨u1, v1, u2, v2, dt2, fwd, frac, rfl⟩
  · show (init :: (st.snaps ++
        [stepCloud pi0 cosd lats lons u1 v1 u2 v2 dt2 fwd frac st.cloud])).getLast?
      = some (stepCloud pi0 cosd lats lons u1 v1 u2 v2 dt2 fwd frac st.cloud)
    rw [← List.cons_append, List.getLast?_concat]

lemma runSubSteps_tracks (pi0 : α) (cosd : α → α) (lats lons : List α)
    (u1 v1 u2 v2 : ℕ → ℕ → α) (dt : ℤ) (fwd : Bool) (n : ℕ)
    (init : List (Pos α)) (st : SimState α)
    (h : Tracks pi0 cosd lats lons init st) :
    Tracks pi0 cosd lats lons init
      (runSubSteps pi0 cosd lats lons u1 v1 u2 v2 dt fwd n st) := by
  exact foldl_preserve (Tracks pi0 cosd lats lons init) _
    (fun st2 k hp => tracks_record pi0 cosd lats lons u1 v1 u2 v2 dt fwd _ dt init st2 hp)
    (List.range n) st h

lemma runSim_tracks (pi0 : α) (cosd : α → α) (lats lons : List α)
    (U V : ℤ → ℕ → ℕ → α) (numTimes : ℕ) (mSIM : String)
    (mDUR ND dt : ℤ) (init : List (Pos α)) :
    Tracks pi0 cosd lats lons init
      (runSim pi0 cosd lats lons U V numTimes mSIM mDUR ND dt init) := by
  exact foldl_preserve (Tracks pi0 cosd lats lons init) _
    (fun st2 t hp =>
      runSubSteps_tracks pi0 cosd lats lons _ _ _ _ dt _ _ init st2 hp)
    (timeIdx mSIM mDUR ND numTimes)
    { cloud := init, snaps := [], dates := [] }
    ⟨List.chain'_singleton _, rfl⟩

lemma chain_dead_persist (pi0 : α) (cosd : α → α) (lats lons : List α)
    (c0 : List (Pos α)) (l : List (List (Pos α)))
    (hch : List.Chain' (StepRel pi0 cosd lats lons) (c0 :: l)) :
    ∀ k2 k, k ≤ k2 → ∀ c c2 i p, l.get? k = some c → l.get? k2 = some c2 →
      c.get? i = some p → (p.1 = none ∨ p.2 = none) →
      c2.get? i = some (none, none) := by
  have hget := List.chain'_iff_get.mp hch
  intro k2 k hk
  induction k2, hk using Nat.le_induction with
  | base =>
    intro c c2 i p hc hc2 hp hdead
    have hcc : c2 = c := by
      rw [hc] at hc2
      exact (Option.some_inj.mp hc2).symm
    subst hcc
    have hklen : k < l.length := (List.get?_eq_some.mp hc).1
    have hrel := hget k (by simpa using hklen)
    have h2 : (c0 :: l).get ⟨k + 1, by simpa using hklen⟩ = c2 := by
      have := List.get?_eq_get (l := c0 :: l) (n := k + 1) (by simpa using hklen)
      rw [List.get?_cons_succ, hc2] at this
      exact (Option.some_inj.mp this).symm
    rw [h2] at hrel
    obtain ⟨u1, v1, u2, v2, dt, fwd, frac, hc_eq⟩ := hrel
    rw [hc_eq, stepCloud, List.get?_map] at hp ⊢
    obtain ⟨q, hq, hfq⟩ := Option.map_eq_some'.mp hp
    rw [hq]
    simp only [Option.map_some']
    have : stepParticle pi0 cosd lats lons u1 v1 u2 v2 dt fwd frac q = (none, none) := by
      apply stepParticle_out_shape
      rw [hfq]
      exact hdead
    rw [this]
  | succ m hm ih =>
    intro c c3 i p hc hc3 hp hdead
    have hm1len : m + 1 < l.length := (List.get?_eq_some.mp hc3).1
    have hmlen : m < l.length := by omega
    set c2 := l.get ⟨m, hmlen⟩ with hc2def
    have hc2 : l.get? m = some c2 := List.get?_eq_get hmlen
    have ih2 := ih c c2 i p hc hc2 hp hdead
    have hrel := hget (m + 1) (by simpa using hm1len)
    have hgm : (c0 :: l).get ⟨m + 1, by simp only [List.length_cons]; omega⟩ = c2 := by
      have := List.get?_eq_get (l := c0 :: l) (n := m + 1)
        (by simp only [List.length_cons]; omega)
      rw [List.get?_cons_succ, hc2] at this
      exact (Option.some_inj.mp this).symm
    have hgm1 : (c0 :: l).get ⟨m + 2, by simp only [List.length_cons]; omega⟩ = c3 := by
      have := List.get?_eq_get (l := c0 :: l) (n := m + 2)
        (by simp only [List.length_cons]; omega)
      rw [List.get?_cons_succ, hc3] at this
      exact (Option.some_inj.mp this).symm
    rw [hgm, hgm1] at hrel
    obtain ⟨u1, v1, u2, v2, dt, fwd, frac, hc_eq⟩ := hrel
    rw [hc_eq, stepCloud, List.get?_map, ih2]
    simp only [Option.map_some']
    rw [stepParticle_dead pi0 cosd lats lons u1 v1 u2 v2 dt fwd frac (none, none)
      (Or.inl rfl)]

/-- C3: a particle that fails the pre-displacement bounds check (because a
coordinate is outside the axis range, or already `NaN`) is recorded as
`(NaN, NaN)` in that sub-step's snapshot; the recorded snapshots form a
sub-step chain from the initial cloud; and once a particle has a `NaN`
coordinate in some recorded snapshot, it is `(NaN, NaN)` in that and every
later recorded snapshot — it is never restored, whatever its un-displaced
position would have been. -/
theorem claimC3 (pi0 : α) (cosd : α → α) (lats lons : List α)
    (U V : ℤ → ℕ → ℕ → α) (numTimes : ℕ) (mSIM : String)
    (mDUR ND dt : ℤ) (init : List (Pos α)) :
    (∀ (u1 v1 u2 v2 : ℕ → ℕ → α) (dt2 : ℤ) (fwd : Bool) (frac : α) (p : Pos α),
        inbP lats lons p = false →
          stepParticle pi0 cosd lats lons u1 v1 u2 v2 dt2 fwd frac p = (none, none)) ∧
      List.Chain' (StepRel pi0 cosd lats lons)
        (init :: (runSim pi0 cosd lats lons U V numTimes mSIM mDUR ND dt init).snaps) ∧
      (∀ k k2 c c2 i p, k ≤ k2 →
        (runSim pi0 cosd lats lons U V numTimes mSIM mDUR ND dt init).snaps.get? k
          = some c →
        (runSim pi0 cosd lats lons U V numTimes mSIM mDUR ND dt init).snaps.get? k2
          = some c2 →
        c.get? i = some p → (p.1 = none ∨ p.2 = none) →
        c2.get? i = some (none, none)) := by
  have hT := runSim_tracks pi0 cosd lats lons U V numTimes mSIM mDUR ND dt init
  refine ⟨fun u1 v1 u2 v2 dt2 fwd frac p hp =>
      stepParticle_not_inb pi0 cosd lats lons u1 v1 u2 v2 dt2 fwd frac p hp,
    hT.1, fun k k2 c c2 i p hk hc hc2 hp hdead =>
      chain_dead_persist pi0 cosd lats lons init _ hT.1 k2 k hk c c2 i p hc hc2 hp hdead⟩

lemma timeIdx_w552 : timeIdx forwardsTok 5 5 2 = [0] := by
  have hM : (majorSteps 5 5 2).toNat = 1 := by
    norm_num [majorSteps, majorStepsI, maxIdxI, Int.toNat_ofNat]
  unfold timeIdx
  rw [if_pos rfl, hM]
  rfl

lemma subSteps_w560 : (subStepsI 5 60).toNat = 2 := by
  have h : subStepsI 5 60 = 2 := by norm_num [subStepsI, ratTrunc]
  rw [h]
  rfl

lemma wExitRun :
    (runSim (3 : ℚ) (fun _ => 1) [0, 10] [0, 10] (fun _ _ _ => 0) (fun _ _ _ => 0)
        2 forwardsTok 5 5 60 [(some 99, some 1)]).snaps
      = [[(none, none)], [(none, none)]] := by
  have e1 : ∀ (fr : ℚ) (d : Bool),
      stepParticle (3 : ℚ) (fun _ => 1) [0, 10] [0, 10] (fun _ _ => 0) (fun _ _ => 0)
        (fun _ _ => 0) (fun _ _ => 0) 60 d fr (some 99, some 1) = (none, none) :=
    fun fr d => stepParticle_not_inb _ _ _ _ _ _ _ _ _ _ _ _ (by decide)
  have e2 : ∀ (fr : ℚ) (d : Bool),
      stepParticle (3 : ℚ) (fun _ => 1) [0, 10] [0, 10] (fun _ _ => 0) (fun _ _ => 0)
        (fun _ _ => 0) (fun _ _ => 0) 60 d fr ((none : Option ℚ), (none : Option ℚ))
        = (none, none) :=
    fun fr d => rfl
  rw [runSim, timeIdx_w552]
  simp only [List.foldl_cons, List.foldl_nil]
  rw [subSteps_w560, runSubSteps]
  have hr : List.range 2 = [0, 1] := rfl
  rw [hr]
  simp only [List.foldl_cons, List.foldl_nil, recordStep, stepCloud, List.map_cons,
    List.map_nil, e1, e2]
  simp

/-- Witness for C3: in a concrete run a particle seeded at longitude 99
(outside the axis range `[0, 10]`) is recorded as `(NaN, NaN)` in the first
snapshot, and the ratchet keeps it `(NaN, NaN)` in the second snapshot. -/
theorem claimC3_witness :
    (runSim (3 : ℚ) (fun _ => 1) [0, 10] [0, 10] (fun _ _ _ => 0) (fun _ _ _ => 0)
        2 forwardsTok 5 5 60 [(some 99, some 1)]).snaps.get? 0
      = some [((none, none) : Pos ℚ)] ∧
    (runSim (3 : ℚ) (fun _ => 1) [0, 10] [0, 10] (fun _ _ _ => 0) (fun _ _ _ => 0)
        2 forwardsTok 5 5 60 [(some 99, some 1)]).snaps.get? 1
      = some [((none, none) : Pos ℚ)] ∧
    [((none, none) : Pos ℚ)].get? 0 = some ((none, none) : Pos ℚ) := by
  have h0 : (runSim (3 : ℚ) (fun _ => 1) [0, 10] [0, 10] (fun _ _ _ => 0)
      (fun _ _ _ => 0) 2 forwardsTok 5 5 60 [(some 99, some 1)]).snaps.get? 0
        = some [((none, none) : Pos ℚ)] := by
    rw [wExitRun]
    rfl
  have h1 : (runSim (3 : ℚ) (fun _ => 1) [0, 10] [0, 10] (fun _ _ _ => 0)
      (fun _ _ _ => 0) 2 forwardsTok 5 5 60 [(some 99, some 1)]).snaps.get? 1
        = some [((none, none) : Pos ℚ)] := by
    rw [wExitRun]
    rfl
  exact ⟨h0, h1,
    (claimC3 (3 : ℚ) (fun _ => 1) [0, 10] [0, 10] (fun _ _ _ => 0) (fun _ _ _ => 0)
        2 forwardsTok 5 5 60 [(some 99, some 1)]).2.2 0 1
      [((none, none) : Pos ℚ)] [((none, none) : Pos ℚ)] 0 ((none, none) : Pos ℚ)
      (by omega) h0 h1 rfl (Or.inl rfl)⟩

/-! ## Claim C7: time-blended velocities -/


lemma runSubSteps_eq (pi0 : α) (cosd : α → α) (lats lons : List α)
    (u1 v1 u2 v2 : ℕ → ℕ → α) (dt : ℤ) (fwd : Bool) (n : ℕ) (st : SimState α) :
    (runSubSteps pi0 cosd lats lons u1 v1 u2 v2 dt fwd n st).snaps
        = st.snaps ++ (List.range n).map
            (fun k => subCloudIter pi0 cosd lats lons u1 v1 u2 v2 dt fwd n st.cloud (k + 1)) ∧
      (runSubSteps pi0 cosd lats lons u1 v1 u2 v2 dt fwd n st).cloud
        = subCloudIter pi0 cosd lats lons u1 v1 u2 v2 dt fwd n st.cloud n := by
  have key : ∀ m : ℕ,
      ((List.range m).foldl
          (fun st2 k =>
            recordStep dt
              (stepCloud pi0 cosd lats lons u1 v1 u2 v2 dt fwd
                (((k + 1 : ℕ) : α) / (n : α)) st2.cloud)
              st2)
          st).snaps
          = st.snaps ++ (List.range m).map
              (fun k => subCloudIter pi0 cosd lats lons u1 v1 u2 v2 dt fwd n st.cloud (k + 1)) ∧
        ((List.range m).foldl
          (fun st2 k =>
            recordStep dt
              (stepCloud pi0 cosd lats lons u1 v1 u2 v2 dt fwd
                (((k + 1 : ℕ) : α) / (n : α)) st2.cloud)
              st2)
          st).cloud
          = subCloudIter pi0 cosd lats lons u1 v1 u2 v2 dt fwd n st.cloud m := by
    intro m
    induction m with
    | zero => exact ⟨by simp, rfl⟩
    | succ m ih =>
      rw [List.range_succ, List.foldl_append]
      simp only [List.foldl_cons, List.foldl_nil]
      constructor
      · rw [recordStep, ih.2]
        simp only [ih.1, List.range_succ, List.map_append, List.map_cons, List.map_nil,
          List.append_assoc]
        rfl
      · rw [recordStep, ih.2]
        rfl
  exact key n

/-- The position update of an in-bounds particle, written with the blended
velocity components and a direction sign factored out. -/
lemma stepParticle_inb (pi0 : α) (cosd : α → α) (lats lons : List α)
    (u1 v1 u2 v2 : ℕ → ℕ → α) (dt : ℤ) (fwd : Bool) (frac : α) (lo la : α)
    (h : inbP lats lons (some lo, some la) = true) :
    stepParticle pi0 cosd lats lons u1 v1 u2 v2 dt fwd frac (some lo, some la)
      = (some (lo + (if fwd then 1 else -1) *
            (((1 - frac) * interp2 lats lons u1 la lo
                + frac * interp2 lats lons u2 la lo)
              * ((dt : α) * 3600) * (360 / (2 * pi0 * 6371000) / cosd la))),
          some (la + (if fwd then 1 else -1) *
            (((1 - frac) * interp2 lats lons v1 la lo
                + frac * interp2 lats lons v2 la lo)
              * ((dt : α) * 3600) * (360 / (2 * pi0 * 6371000))))) := by
  simp only [stepParticle, if_pos h]
  cases fwd <;>
    simp only [Bool.false_eq_true, if_false, if_true, Prod.mk.injEq, Option.some.injEq] <;>
    constructor <;> ring

/-- C7: within one major step with `n = sub_steps`, the snapshot recorded
at sub-step `s` (1-indexed) is obtained from the state after `s - 1`
sub-steps by one update with fraction `frac = s / n`; that update moves
every in-bounds particle with the time blend
`u = (1 - s/n) * u_at_i1 + (s/n) * u_at_i2` (and likewise for `v`) of the
two bilinear samples at the particle's current position, while
out-of-bounds particles get no velocity and are marked exited. -/
theorem claimC7 (pi0 : α) (cosd : α → α) (lats lons : List α)
    (u1 v1 u2 v2 : ℕ → ℕ → α) (dt : ℤ) (fwd : Bool) (n : ℕ) (st : SimState α)
    (s : ℕ) (h1 : 1 ≤ s) (h2 : s ≤ n) :
    (runSubSteps pi0 cosd lats lons u1 v1 u2 v2 dt fwd n st).snaps.get?
        (st.snaps.length + (s - 1))
      = some (stepCloud pi0 cosd lats lons u1 v1 u2 v2 dt fwd ((s : α) / (n : α))
          (subCloudIter pi0 cosd lats lons u1 v1 u2 v2 dt fwd n st.cloud (s - 1))) ∧
    (∀ lo la : α, inbP lats lons (some lo, some la) = true →
      stepParticle pi0 cosd lats lons u1 v1 u2 v2 dt fwd ((s : α) / (n : α))
          (some lo, some la)
        = (some (lo + (if fwd then 1 else -1) *
              (((1 - (s : α) / (n : α)) * interp2 lats lons u1 la lo
                  + ((s : α) / (n : α)) * interp2 lats lons u2 la lo)
                * ((dt : α) * 3600) * (360 / (2 * pi0 * 6371000) / cosd la))),
            some (la + (if fwd then 1 else -1) *
              (((1 - (s : α) / (n : α)) * interp2 lats lons v1 la lo
                  + ((s : α) / (n : α)) * interp2 lats lons v2 la lo)
                * ((dt : α) * 3600) * (360 / (2 * pi0 * 6371000)))))) ∧
    (∀ p : Pos α, inbP lats lons p = false →
      stepParticle pi0 cosd lats lons u1 v1 u2 v2 dt fwd ((s : α) / (n : α)) p
        = (none, none)) := by
  refine ⟨?_, fun lo la h => stepParticle_inb pi0 cosd lats lons u1 v1 u2 v2 dt fwd _ lo la h,
    fun p h => stepParticle_not_inb pi0 cosd lats lons u1 v1 u2 v2 dt fwd _ p h⟩
  have hsn : s - 1 < n := by omega
  rw [(runSubSteps_eq pi0 cosd lats lons u1 v1 u2 v2 dt fwd n st).1,
    List.get?_append_right (by omega), Nat.add_sub_cancel_left, List.get?_map,
    List.get?_range hsn]
  have hcast : ((s - 1 + 1 : ℕ) : α) = (s : α) := by
    congr 1
    omega
  simp only [Option.map_some', subCloudIter, hcast]

/-- Witness for C7: the first of two sub-steps of a concrete major step
uses fraction `1 / 2`. -/
theorem claimC7_witness :
    1 ≤ 1 ∧ 1 ≤ 2 ∧
      ((runSubSteps (3 : ℚ) (fun _ => 1) [0, 10] [0, 10] (fun _ _ => 0) (fun _ _ => 0)
            (fun _ _ => 0) (fun _ _ => 0) 1 true 2
            { cloud := [(some 1, some 1)], snaps := [], dates := [] }).snaps.get?
          (({ cloud := [(some 1, some 1)], snaps := [], dates := [] } :
              SimState ℚ).snaps.length + (1 - 1))
        = some (stepCloud (3 : ℚ) (fun _ => 1) [0, 10] [0, 10] (fun _ _ => 0)
            (fun _ _ => 0) (fun _ _ => 0) (fun _ _ => 0) 1 true ((1 : ℕ) / (2 : ℕ) : ℚ)
            (subCloudIter (3 : ℚ) (fun _ => 1) [0, 10] [0, 10] (fun _ _ => 0)
              (fun _ _ => 0) (fun _ _ => 0) (fun _ _ => 0) 1 true 2
              [(some 1, some 1)] (1 - 1))) ∧
        (∀ lo la : ℚ, inbP [0, 10] [0, 10] (some lo, some la) = true →
          stepParticle (3 : ℚ) (fun _ => 1) [0, 10] [0, 10] (fun _ _ => 0) (fun _ _ => 0)
              (fun _ _ => 0) (fun _ _ => 0) 1 true ((1 : ℕ) / (2 : ℕ) : ℚ)
              (some lo, some la)
            = (some (lo + (if true then 1 else -1) *
                  (((1 - ((1 : ℕ) : ℚ) / ((2 : ℕ) : ℚ)) *
                      interp2 [0, 10] [0, 10] (fun _ _ => 0) la lo
                      + (((1 : ℕ) : ℚ) / ((2 : ℕ) : ℚ)) *
                        interp2 [0, 10] [0, 10] (fun _ _ => 0) la lo)
                    * (((1 : ℤ) : ℚ) * 3600) * (360 / (2 * 3 * 6371000) / 1))),
                some (la + (if true then 1 else -1) *
                  (((1 - ((1 : ℕ) : ℚ) / ((2 : ℕ) : ℚ)) *
                      interp2 [0, 10] [0, 10] (fun _ _ => 0) la lo
                      + (((1 : ℕ) : ℚ) / ((2 : ℕ) : ℚ)) *
                        interp2 [0, 10] [0, 10] (fun _ _ => 0) la lo)
                    * (((1 : ℤ) : ℚ) * 3600) * (360 / (2 * 3 * 6371000)))))) ∧
        (∀ p : Pos ℚ, inbP [0, 10] [0, 10] p = false →
          stepParticle (3 : ℚ) (fun _ => 1) [0, 10] [0, 10] (fun _ _ => 0) (fun _ _ => 0)
              (fun _ _ => 0) (fun _ _ => 0) 1 true ((1 : ℕ) / (2 : ℕ) : ℚ) p
            = (none, none))) := by
  refine ⟨le_refl 1, by omega, ?_⟩
  exact claimC7 (3 : ℚ) (fun _ => 1) [0, 10] [0, 10] (fun _ _ => 0) (fun _ _ => 0)
    (fun _ _ => 0) (fun _ _ => 0) 1 true 2
    { cloud := [(some 1, some 1)], snaps := [], dates := [] } 1 (le_refl 1) (by omega)

/-! ## Claim C9: zero velocity at a grid node -/

lemma filter_length_pre {β : Type} (p : β → Bool) :
    ∀ (xs : List β) (k : ℕ), k ≤ xs.length →
      (∀ i (h : i < xs.length), (p (xs.get ⟨i, h⟩) = true ↔ i < k)) →
      (xs.filter p).length = k := by
  intro xs
  induction xs with
  | nil =>
    intro k hk _
    simp only [List.length_nil, Nat.le_zero] at hk
    subst hk
    simp
  | cons a t ih =>
    intro k hk hiff
    cases k with
    | zero =>
      have ha : p a = false := by
        have h0 := hiff 0 (by simp)
        simp only [List.get] at h0
        rw [Bool.eq_false_iff]
        intro hcon
        exact absurd (h0.mp hcon) (by omega)
      have ht : (t.filter p).length = 0 := by
        apply ih 0 (by omega)
        intro i h
        have := hiff (i + 1) (by simp only [List.length_cons]; omega)
        simp only [List.get_cons_succ] at this
        constructor
        · intro hp
          exact absurd (this.mp hp) (by omega)
        · intro hcon
          exact absurd hcon (by omega)
      simp only [List.filter_cons, ha]
      exact ht
    | succ m =>
      have ha : p a = true := by
        have h0 := hiff 0 (by simp)
        simp only [List.get] at h0
        exact h0.mpr (by omega)
      have ht : (t.filter p).length = m := by
        apply ih m (by simp only [List.length_cons] at hk; omega)
        intro i h
        have := hiff (i + 1) (by simp only [List.length_cons]; omega)
        simp only [List.get_cons_succ] at this
        constructor
        · intro hp
          have := this.mp hp
          omega
        · intro him
          exact this.mpr (by omega)
      simp only [List.filter_cons, ha, if_true, List.length_cons]
      omega

lemma countLT_node (xs : List α) (hs : List.Chain' (· < ·) xs) (k : ℕ)
    (hk : k < xs.length) :
    countLT xs (xs.get ⟨k, hk⟩) = k := by
  have hpw := List.pairwise_iff_get.mp (List.chain'_iff_pairwise.mp hs)
  apply filter_length_pre
  · omega
  · intro i h
    rw [decide_eq_true_eq]
    constructor
    · intro hlt
      by_contra hik
      push_neg at hik
      rcases Nat.lt_or_ge k i with hki | hki
      · exact absurd (hpw ⟨k, hk⟩ ⟨i, h⟩ hki) (not_lt_of_lt hlt)
      · have : k = i := by omega
        subst this
        exact absurd hlt (lt_irrefl _)
    · intro hik
      exact hpw ⟨i, h⟩ ⟨k, hk⟩ hik

lemma nodeCell (xs : List α) (hs : List.Chain' (· < ·) xs) (h2 : 2 ≤ xs.length)
    (k : ℕ) (hk : k < xs.length) :
    (k = 0 ∧ cellIdx xs (xs.get ⟨k, hk⟩) = 0 ∧ lamW xs (xs.get ⟨k, hk⟩) = 0) ∨
      (1 ≤ k ∧ cellIdx xs (xs.get ⟨k, hk⟩) = k - 1 ∧ lamW xs (xs.get ⟨k, hk⟩) = 1) := by
  have hc := countLT_node xs hs k hk
  cases k with
  | zero =>
    left
    have hcell : cellIdx xs (xs.get ⟨0, hk⟩) = 0 := by
      unfold cellIdx
      rw [hc]
      simp
    refine ⟨rfl, hcell, ?_⟩
    have hget : xs.getD 0 0 = xs.get ⟨0, hk⟩ := by
      rw [List.getD_eq_get?, List.get?_eq_get hk]
      rfl
    simp only [lamW, hcell, hget]
    simp
  | succ m =>
    right
    have hcell : cellIdx xs (xs.get ⟨m + 1, hk⟩) = m := by
      unfold cellIdx
      rw [hc]
      simp only [Nat.add_sub_cancel]
      omega
    refine ⟨by omega, by rw [hcell]; omega, ?_⟩
    have hgm : xs.getD m 0 = xs.get ⟨m, by omega⟩ := by
      rw [List.getD_eq_get?, List.get?_eq_get (by omega : m < xs.length)]
      rfl
    have hgm1 : xs.getD (m + 1) 0 = xs.get ⟨m + 1, hk⟩ := by
      rw [List.getD_eq_get?, List.get?_eq_get hk]
      rfl
    have hlt : xs.get ⟨m, by omega⟩ < xs.get ⟨m + 1, hk⟩ := by
      have hpw := List.pairwise_iff_get.mp (List.chain'_iff_pairwise.mp hs)
      exact hpw ⟨m, by omega⟩ ⟨m + 1, hk⟩ (Fin.mk_lt_mk.mpr (by omega))
    simp only [lamW, hcell, hgm, hgm1]
    exact div_self (by linarith [hlt])

lemma npMin_le_mem {β : Type} [LinearOrder β] :
    ∀ (t : List β) (a : β), t.foldl min a ≤ a ∧ ∀ x ∈ t, t.foldl min a ≤ x := by
  intro t
  induction t with
  | nil => intro a; exact ⟨le_refl _, by simp⟩
  | cons b t ih =>
    intro a
    have h := ih (min a b)
    refine ⟨le_trans h.1 (min_le_left _ _), ?_⟩
    intro x hx
    rcases List.mem_cons.mp hx with hx | hx
    · subst hx
      exact le_trans h.1 (min_le_right _ _)
    · exact h.2 x hx

lemma le_npMax_mem {β : Type} [LinearOrder β] :
    ∀ (t : List β) (a : β), a ≤ t.foldl max a ∧ ∀ x ∈ t, x ≤ t.foldl max a := by
  intro t
  induction t with
  | nil => intro a; exact ⟨le_refl _, by simp⟩
  | cons b t ih =>
    intro a
    have h := ih (max a b)
    refine ⟨le_trans (le_max_left _ _) h.1, ?_⟩
    intro x hx
    rcases List.mem_cons.mp hx with hx | hx
    · subst hx
      exact le_trans (le_max_right _ _) h.1
    · exact h.2 x hx

lemma npMin_le_get (xs : List α) (k : ℕ) (hk : k < xs.length) :
    npMin xs ≤ xs.get ⟨k, hk⟩ := by
  have hmem := List.get_mem xs k hk
  cases xs with
  | nil => simp at hk
  | cons a t =>
    rcases List.mem_cons.mp hmem with hx | hx
    · rw [hx]
      exact (npMin_le_mem t a).1
    · exact (npMin_le_mem t a).2 _ hx

lemma get_le_npMax (xs : List α) (k : ℕ) (hk : k < xs.length) :
    xs.get ⟨k, hk⟩ ≤ npMax xs := by
  have hmem := List.get_mem xs k hk
  cases xs with
  | nil => simp at hk
  | cons a t =>
    rcases List.mem_cons.mp hmem with hx | hx
    · rw [hx]
      exact (le_npMax_mem t a).1
    · exact (le_npMax_mem t a).2 _ hx

lemma interp2_node (lats lons : List α)
    (hs1 : List.Chain' (· < ·) lats) (hs2 : List.Chain' (· < ·) lons)
    (hl2 : 2 ≤ lats.length) (ho2 : 2 ≤ lons.length)
    (g : ℕ → ℕ → α) (i j : ℕ) (hi : i < lats.length) (hj : j < lons.length) :
    interp2 lats lons g (lats.get ⟨i, hi⟩) (lons.get ⟨j, hj⟩) = g i j := by
  rw [interp2, if_pos ⟨npMin_le_get lats i hi, get_le_npMax lats i hi,
    npMin_le_get lons j hj, get_le_npMax lons j hj⟩]
  rcases nodeCell lats hs1 hl2 i hi with ⟨hi0, hci, hti⟩ | ⟨hi1, hci, hti⟩ <;>
    rcases nodeCell lons hs2 ho2 j hj with ⟨hj0, hcj, htj⟩ | ⟨hj1, hcj, htj⟩ <;>
    rw [hci, hcj, hti, htj]
  · subst hi0
    subst hj0
    simp
  · subst hi0
    have hj3 : j - 1 + 1 = j := by omega
    simp [hj3]
  · subst hj0
    have hi3 : i - 1 + 1 = i := by omega
    simp [hi3]
  · have hi3 : i - 1 + 1 = i := by omega
    have hj3 : j - 1 + 1 = j := by omega
    simp [hi3, hj3]

/-- C9: a particle sitting exactly on a grid node (of strictly increasing
axes with at least two points each) where `U` and `V` vanish in both
blended time snapshots does not move in that sub-step: the update returns
its coordinates unchanged. -/
theorem claimC9 (pi0 : α) (cosd : α → α) (lats lons : List α)
    (u1 v1 u2 v2 : ℕ → ℕ → α) (dt : ℤ) (fwd : Bool) (frac : α)
    (hs1 : List.Chain' (· < ·) lats) (hs2 : List.Chain' (· < ·) lons)
    (hl2 : 2 ≤ lats.length) (ho2 : 2 ≤ lons.length)
    (i j : ℕ) (hi : i < lats.length) (hj : j < lons.length)
    (hu1 : u1 i j = 0) (hu2 : u2 i j = 0) (hv1 : v1 i j = 0) (hv2 : v2 i j = 0) :
    stepParticle pi0 cosd lats lons u1 v1 u2 v2 dt fwd frac
        (some (lons.get ⟨j, hj⟩), some (lats.get ⟨i, hi⟩))
      = (some (lons.get ⟨j, hj⟩), some (lats.get ⟨i, hi⟩)) := by
  have hin : inbP lats lons (some (lons.get ⟨j, hj⟩), some (lats.get ⟨i, hi⟩)) = true := by
    simp only [inbP, Bool.and_eq_true, decide_eq_true_eq]
    exact ⟨⟨⟨npMin_le_get lons j hj, get_le_npMax lons j hj⟩,
      npMin_le_get lats i hi⟩, get_le_npMax lats i hi⟩
  rw [stepParticle_inb pi0 cosd lats lons u1 v1 u2 v2 dt fwd frac _ _ hin,
    interp2_node lats lons hs1 hs2 hl2 ho2 u1 i j hi hj,
    interp2_node lats lons hs1 hs2 hl2 ho2 u2 i j hi hj,
    interp2_node lats lons hs1 hs2 hl2 ho2 v1 i j hi hj,
    interp2_node lats lons hs1 hs2 hl2 ho2 v2 i j hi hj,
    hu1, hu2, hv1, hv2]
  simp

/-- Witness for C9 at a concrete 2-by-2 grid with zero velocity. -/
theorem claimC9_witness :
    List.Chain' (· < ·) ([0, 1] : List ℚ) ∧ 2 ≤ ([0, 1] : List ℚ).length ∧
      stepParticle (3 : ℚ) (fun _ => 1) [0, 1] [0, 1] (fun _ _ => 0) (fun _ _ => 0)
          (fun _ _ => 0) (fun _ _ => 0) 1 true (1 / 2)
          (some (([0, 1] : List ℚ).get ⟨0, by decide⟩),
            some (([0, 1] : List ℚ).get ⟨0, by decide⟩))
        = (some (([0, 1] : List ℚ).get ⟨0, by decide⟩),
            some (([0, 1] : List ℚ).get ⟨0, by decide⟩)) := by
  have hch : List.Chain' (· < ·) ([0, 1] : List ℚ) := by
    rw [List.chain'_cons]
    exact ⟨by norm_num, List.chain'_singleton _⟩
  refine ⟨hch, by decide, ?_⟩
  exact claimC9 (3 : ℚ) (fun _ => 1) [0, 1] [0, 1] (fun _ _ => 0) (fun _ _ => 0)
    (fun _ _ => 0) (fun _ _ => 0) 1 true (1 / 2) hch hch
    (by decide) (by decide) 0 0 (by decide) (by decide) rfl rfl rfl rfl

/-! ## Claim C1: conversion of velocity to a displacement in degrees -/

lemma interp2_const (lats lons : List α) (cst la lo : α)
    (h : npMin lats ≤ la ∧ la ≤ npMax lats ∧ npMin lons ≤ lo ∧ lo ≤ npMax lons) :
    interp2 lats lons (fun _ _ => cst) la lo = cst := by
  rw [interp2, if_pos h]
  ring

/-- C1 (amended): for an in-bounds particle the code displaces by
`Δlon = u * (dt * 3600) / (mlat * cos(radians(lat)))` and
`Δlat = v * (dt * 3600) / mlat` with `mlat = (2 * pi * 6371000) / 360` —
that is, the effective meters-per-degree-longitude is
`mlon(lat) = mlat * cos(radians(lat))`, not the spec's
`mlat / cos(radians(lat))` (refuted by the counterexample); the sign of the
displacement follows the direction token. -/
theorem claimC1 (pi0 : α) (cosd : α → α) (lats lons : List α)
    (u1 v1 u2 v2 : ℕ → ℕ → α) (dt : ℤ) (fwd : Bool) (frac lo la : α)
    (hin : inbP lats lons (some lo, some la) = true)
    (hc : cosd la ≠ 0) (hpi : pi0 ≠ 0) :
    stepParticle pi0 cosd lats lons u1 v1 u2 v2 dt fwd frac (some lo, some la)
      = (some (lo + (if fwd then 1 else -1) *
            (((1 - frac) * interp2 lats lons u1 la lo
                + frac * interp2 lats lons u2 la lo)
              * ((dt : α) * 3600) / (mlatDef pi0 * cosd la))),
          some (la + (if fwd then 1 else -1) *
            (((1 - frac) * interp2 lats lons v1 la lo
                + frac * interp2 lats lons v2 la lo)
              * ((dt : α) * 3600) / mlatDef pi0))) := by
  have hden : (2 * pi0 * 6371000 : α) ≠ 0 :=
    mul_ne_zero (mul_ne_zero two_ne_zero hpi) (by norm_num)
  rw [stepParticle_inb pi0 cosd lats lons u1 v1 u2 v2 dt fwd frac lo la hin]
  simp only [mlatDef, Prod.mk.injEq, Option.some.injEq]
  constructor <;> field_simp

/-- Witness for the amended C1 at a concrete rational instance. -/
theorem claimC1_witness :
    inbP ([0, 10] : List ℚ) [0, 10] (some 1, some 1) = true ∧
      (fun _ : ℚ => (1 : ℚ)) 1 ≠ 0 ∧ (3 : ℚ) ≠ 0 ∧
      stepParticle (3 : ℚ) (fun _ => 1) [0, 10] [0, 10] (fun _ _ => 0) (fun _ _ => 0)
          (fun _ _ => 0) (fun _ _ => 0) 1 true (1 / 2) (some 1, some 1)
        = (some (1 + (if true then 1 else -1) *
              (((1 - (1 / 2 : ℚ)) * interp2 [0, 10] [0, 10] (fun _ _ => 0) 1 1
                  + (1 / 2 : ℚ) * interp2 [0, 10] [0, 10] (fun _ _ => 0) 1 1)
                * (((1 : ℤ) : ℚ) * 3600) / (mlatDef 3 * (fun _ : ℚ => (1 : ℚ)) 1))),
            some (1 + (if true then 1 else -1) *
              (((1 - (1 / 2 : ℚ)) * interp2 [0, 10] [0, 10] (fun _ _ => 0) 1 1
                  + (1 / 2 : ℚ) * interp2 [0, 10] [0, 10] (fun _ _ => 0) 1 1)
                * (((1 : ℤ) : ℚ) * 3600) / mlatDef 3))) := by
  refine ⟨by decide, by norm_num, by norm_num, ?_⟩
  exact claimC1 (3 : ℚ) (fun _ => 1) [0, 10] [0, 10] (fun _ _ => 0) (fun _ _ => 0)
    (fun _ _ => 0) (fun _ _ => 0) 1 true (1 / 2) 1 1 (by decide) (by norm_num)
    (by norm_num)

/-- Counterexample to C1 as stated: at latitude 60 (where
`cos(radians(60)) = 1/2`) with unit zonal velocity, the code's
displacement is four times what the claimed formula
`Δlon = u * Δt / (mlat / cos(radians(lat)))` predicts. -/
theorem claimC1_counterexample :
    stepParticle Real.pi cosdR [0, 60] [0, 1] (fun _ _ => 1) (fun _ _ => 0)
        (fun _ _ => 1) (fun _ _ => 0) 1 true 0 (some 0, some 60)
      ≠ (some (0 + (1 : ℝ) * (((1 : ℤ) : ℝ) * 3600) / specMlon Real.pi cosdR 60),
          some (60 + (0 : ℝ) * (((1 : ℤ) : ℝ) * 3600) / mlatDef Real.pi)) := by
  have hbounds : npMin ([0, 60] : List ℝ) ≤ 60 ∧ (60 : ℝ) ≤ npMax [0, 60] ∧
      npMin ([0, 1] : List ℝ) ≤ 0 ∧ (0 : ℝ) ≤ npMax [0, 1] := by
    refine ⟨?_, ?_, ?_, ?_⟩ <;> norm_num [npMin, npMax]
  have hin : inbP ([0, 60] : List ℝ) [0, 1] (some 0, some 60) = true := by
    simp only [inbP, Bool.and_eq_true, decide_eq_true_eq]
    exact ⟨⟨⟨hbounds.2.2.1, hbounds.2.2.2⟩, hbounds.1⟩, hbounds.2.1⟩
  have h60 : cosdR 60 = 1 / 2 := by
    have harg : (60 : ℝ) * Real.pi / 180 = Real.pi / 3 := by ring
    rw [cosdR, harg, Real.cos_pi_div_three]
  rw [stepParticle_inb Real.pi cosdR [0, 60] [0, 1] (fun _ _ => 1) (fun _ _ => 0)
    (fun _ _ => 1) (fun _ _ => 0) 1 true 0 0 60 hin]
  rw [interp2_const [0, 60] [0, 1] 1 60 0 hbounds, interp2_const [0, 60] [0, 1] 0 60 0 hbounds]
  intro heq
  have h1 : (0 : ℝ) + (if true then (1 : ℝ) else -1) *
      (((1 - 0) * 1 + 0 * 1) * (((1 : ℤ) : ℝ) * 3600)
        * (360 / (2 * Real.pi * 6371000) / cosdR 60))
      = 0 + (1 : ℝ) * (((1 : ℤ) : ℝ) * 3600) / specMlon Real.pi cosdR 60 := by
    have := congrArg Prod.fst heq
    simpa using this
  rw [h60] at h1
  simp only [specMlon, mlatDef, h60] at h1
  have hpi := Real.pi_ne_zero
  field_simp at h1
  nlinarith [Real.pi_pos, h1]

/-! ## Claim C4: rejection of malformed parameter strings -/


lemma parse_params_some_inv (s : String) (p : ParsedParams)
    (h : parse_params s = some p) :
    ∃ s0 s1 s2 s3 s5 s6,
      (tokensOf s).get? 0 = some s0 ∧ pyFloat s0 = some p.lon ∧
      (tokensOf s).get? 1 = some s1 ∧ pyFloat s1 = some p.lat ∧
      (tokensOf s).get? 2 = some s2 ∧ pyInt s2 = some p.mNP ∧
      (tokensOf s).get? 3 = some s3 ∧ pyFloat s3 = some p.mAREA ∧
      (tokensOf s).get? 4 = some p.mSIM ∧
      (tokensOf s).get? 5 = some s5 ∧ pyInt s5 = some p.mDUR ∧
      (tokensOf s).get? 6 = some s6 ∧ pyInt s6 = some p.mDT ∧
      (tokensOf s).get? 7 = some p.date_str := by
  simp only [parse_params, bind, Option.bind_eq_some, pure, Option.some.injEq] at h
  obtain ⟨s0, h0, lon, hlon, s1, h1, lat, hlat, s2, h2, vNP, hNP, s3, h3, vAREA, hAREA,
    vSIM, h4, s5, h5, vDUR, hDUR, s6, h6, vDT, hDT, ds, h7, hp⟩ := h
  subst hp
  exact ⟨s0, s1, s2, s3, s5, s6, h0, hlon, h1, hlat, h2, hNP, h3, hAREA, h4, h5, hDUR,
    h6, hDT, h7⟩

/-- C4 (amended): a request whose parameter string splits into fewer than
eight tokens, or whose numeric fields do not parse, is rejected: the parse
fails and the handler reports a client input error without invoking the
simulation (and so without touching any velocity data source), producing no
trajectory.  However a successful parse only guarantees that the eight
leading tokens convert — extra tokens are ignored, and the direction token
is passed through unvalidated (the integration loop then treats every
non-`forwards` token as `backwards`). -/
theorem claimC4 :
    (∀ s : String, (tokensOf s).length < 8 → parse_params s = none) ∧
      (∀ (s : String) (p : ParsedParams), parse_params s = some p →
        ((tokensOf s).get? 0).bind pyFloat = some p.lon ∧
        ((tokensOf s).get? 1).bind pyFloat = some p.lat ∧
        ((tokensOf s).get? 2).bind pyInt = some p.mNP ∧
        ((tokensOf s).get? 3).bind pyFloat = some p.mAREA ∧
        (tokensOf s).get? 4 = some p.mSIM ∧
        ((tokensOf s).get? 5).bind pyInt = some p.mDUR ∧
        ((tokensOf s).get? 6).bind pyInt = some p.mDT ∧
        (tokensOf s).get? 7 = some p.date_str) ∧
      (∀ (f : ParsedParams → SimResult ℚ) (s : String), parse_params s = none →
        api_sim f s = Except.error ("client input error")) ∧
      (∀ (mSIM : String) (mDUR ND : ℤ) (numTimes : ℕ) (t : ℤ), mSIM ≠ forwardsTok →
        timeIdx mSIM mDUR ND numTimes = timeIdx backwardsTok mDUR ND numTimes ∧
          stepPair mSIM t = stepPair backwardsTok t) := by
  have hinv := parse_params_some_inv
  refine ⟨?_, ?_, ?_, ?_⟩
  · intro s hlen
    cases hp : parse_params s with
    | none => rfl
    | some p =>
      obtain ⟨s0, s1, s2, s3, s5, s6, hrest⟩ := hinv s p hp
      have h7 := hrest.2.2.2.2.2.2.2.2.2.2.2.2.2
      have := (List.get?_eq_some.mp h7).1
      omega
  · intro s p hp
    obtain ⟨s0, s1, s2, s3, s5, s6, h0, hlon, h1, hlat, h2, hNP, h3, hAREA, h4, h5,
      hDUR, h6, hDT, h7⟩ := hinv s p hp
    rw [h0, h1, h2, h3, h5, h6]
    exact ⟨hlon, hlat, hNP, hAREA, h4, hDUR, hDT, h7⟩
  · intro f s hp
    simp [api_sim, hp]
  · intro mSIM mDUR ND numTimes t hne
    constructor
    · unfold timeIdx
      rw [if_neg hne, if_neg (by decide)]
    · unfold stepPair
      rw [if_neg hne, if_neg (by decide)]

/-- Witness for C4: a three-token request is rejected and the handler
errors without running the simulation. -/
theorem claimC4_witness :
    (tokensOf ("1_2_3")).length < 8 ∧ parse_params ("1_2_3") = none ∧
      api_sim (fun _ => emptyResult) ("1_2_3")
        = Except.error ("client input error") := by
  have hlen : (tokensOf ("1_2_3")).length < 8 := by decide
  have hnone := claimC4.1 ("1_2_3") hlen
  exact ⟨hlen, hnone, claimC4.2.2.1 (fun _ => emptyResult) ("1_2_3") hnone⟩

/-- Counterexample to C4 as stated: a request with nine tokens and the
unrecognized direction token is accepted by the parser (the ninth token is
ignored, the direction is passed through), and the handler reaches the
simulation instead of rejecting the request. -/
theorem claimC4_counterexample :
    parse_params ("1_2_3_4_sideways_5_6_d_x")
        = some ⟨1, 2, 3, 4, ("sideways"), 5, 6, ("d")⟩ ∧
      (tokensOf ("1_2_3_4_sideways_5_6_d_x")).length = 9 ∧
      api_sim (fun _ => emptyResult) ("1_2_3_4_sideways_5_6_d_x")
        = Except.ok emptyResult := by
  have hp : parse_params ("1_2_3_4_sideways_5_6_d_x")
      = some ⟨1, 2, 3, 4, ("sideways"), 5, 6, ("d")⟩ := by decide
  refine ⟨hp, by decide, ?_⟩
  simp [api_sim, hp]

end App
